import Mathlib

/-!
Shallow embedding of `src/flows/pipeline.py` (quality-gated ETL pipeline).

Modelling conventions:
* A pandas cell is a `Cell`: `null` stands for any missing value
  (NaN / None / NaT / NA) as produced by CSV ingestion, `str` for a string
  value, `num` for a numeric value (Python floats are modelled as exact
  rationals), `ts` for a parsed UTC instant (stored as rational seconds
  since the epoch).
* Python strings are modelled as lists of Unicode code points (`PyStr`),
  so that `str.strip`, `str.lower` and literal comparison are elementary
  list functions with provable algebra.  `S` converts a Lean string
  literal to this representation.
* A pandas DataFrame is a `Frame`: one presence flag per logical column
  (the flags refer to the names after the line-118 normalization
  `c.strip().lower().replace(" ", "_")`, which is idempotent and not
  modelled further) together with the ordered list of rows.  A field of a
  row whose column flag is `false` is junk and is never read by the
  embedded operations, mirroring the `if col in df.columns` guards.
-/

/-- Python strings as lists of Unicode code points. -/
abbrev PyStr := List ℕ

/-- Code-point view of a Lean string literal. -/
def S (s : String) : PyStr := s.data.map Char.toNat

/-- Whitespace as stripped by Python `str.strip()` (ASCII subset). -/
def isWsChar (n : ℕ) : Bool :=
  decide (n = 32 ∨ n = 9 ∨ n = 10 ∨ n = 13 ∨ n = 11 ∨ n = 12)

/-- ASCII digit. -/
def isDigitChar (n : ℕ) : Bool := decide (48 ≤ n ∧ n ≤ 57)

/-- Python `str.lower()` on one character (ASCII range). -/
def lowerChar (n : ℕ) : ℕ := if 65 ≤ n ∧ n ≤ 90 then n + 32 else n

/-- Python `str.strip()`: drop leading and trailing whitespace. -/
def pyStrip (l : PyStr) : PyStr :=
  List.rdropWhile isWsChar (List.dropWhile isWsChar l)

/-- Python `str.lower()` (ASCII model). -/
def pyLower (l : PyStr) : PyStr := l.map lowerChar

theorem lowerChar_idem (n : ℕ) : lowerChar (lowerChar n) = lowerChar n := by
  unfold lowerChar
  split_ifs with h1 h2 <;> omega

theorem isWsChar_lowerChar (n : ℕ) : isWsChar (lowerChar n) = isWsChar n := by
  unfold lowerChar isWsChar
  split_ifs with h1
  · exact decide_eq_decide.mpr (by omega)
  · rfl

theorem dropWhile_idem {α : Type} (p : α → Bool) (l : List α) :
    List.dropWhile p (List.dropWhile p l) = List.dropWhile p l := by
  induction l with
  | nil => rfl
  | cons a l ih =>
    by_cases h : p a
    · simp [List.dropWhile_cons, h, ih]
    · simp [List.dropWhile_cons, h]

theorem dropWhile_eq_self_of_prefix {α : Type} (p : α → Bool) {l m : List α}
    (hpre : m <+: l) (hl : List.dropWhile p l = l) :
    List.dropWhile p m = m := by
  cases m with
  | nil => rfl
  | cons a m' =>
    obtain ⟨t, ht⟩ := hpre
    have ha : p a = false := by
      subst ht
      rw [List.cons_append, List.dropWhile_cons] at hl
      by_cases h : p a
      · exfalso
        rw [if_pos h] at hl
        have hlen := congrArg List.length hl
        have hle := (List.dropWhile_suffix (l := m' ++ t) p).sublist.length_le
        rw [List.length_cons] at hlen
        omega
      · simpa using h
    simp [List.dropWhile_cons, ha]

theorem pyStrip_idem (l : PyStr) : pyStrip (pyStrip l) = pyStrip l := by
  unfold pyStrip
  have h1 : List.dropWhile isWsChar (List.dropWhile isWsChar l) =
      List.dropWhile isWsChar l := dropWhile_idem _ _
  have hpre : List.rdropWhile isWsChar (List.dropWhile isWsChar l) <+:
      List.dropWhile isWsChar l := List.rdropWhile_prefix _ _
  have h2 : List.dropWhile isWsChar
      (List.rdropWhile isWsChar (List.dropWhile isWsChar l)) =
      List.rdropWhile isWsChar (List.dropWhile isWsChar l) :=
    dropWhile_eq_self_of_prefix _ hpre h1
  rw [h2, List.rdropWhile_idempotent]

theorem dropWhile_map_of_comm {α : Type} (f : α → α) (p : α → Bool)
    (hf : ∀ a, p (f a) = p a) (l : List α) :
    List.dropWhile p (l.map f) = (List.dropWhile p l).map f := by
  induction l with
  | nil => rfl
  | cons a l ih =>
    by_cases h : p a
    · simp [List.dropWhile_cons, hf, h, ih]
    · simp [List.dropWhile_cons, hf, h]

theorem rdropWhile_map_of_comm {α : Type} (f : α → α) (p : α → Bool)
    (hf : ∀ a, p (f a) = p a) (l : List α) :
    List.rdropWhile p (l.map f) = (List.rdropWhile p l).map f := by
  unfold List.rdropWhile
  rw [← List.map_reverse, dropWhile_map_of_comm f p hf, List.map_reverse]

theorem pyStrip_pyLower (l : PyStr) :
    pyStrip (pyLower l) = pyLower (pyStrip l) := by
  unfold pyStrip pyLower
  rw [dropWhile_map_of_comm lowerChar isWsChar isWsChar_lowerChar,
    rdropWhile_map_of_comm lowerChar isWsChar isWsChar_lowerChar]

theorem pyLower_idem (l : PyStr) : pyLower (pyLower l) = pyLower l := by
  unfold pyLower
  rw [List.map_map]
  exact List.map_congr_left (fun a _ => lowerChar_idem a)

/-- A pandas cell value.  `null` covers NaN / None / NaT / NA; `num` models
Python floats as exact rationals; `ts` is a timezone-aware UTC instant,
stored as rational seconds since the epoch. -/
inductive Cell where
  | null : Cell
  | str : PyStr → Cell
  | num : ℚ → Cell
  | ts : ℚ → Cell
deriving DecidableEq

/-- `pd.isna` on one cell. -/
def isNull : Cell → Bool
  | Cell.null => true
  | _ => false

/-- The code points of the `str()` image of a UTC instant: an ISO-like
rendering that always contains a timezone suffix "+00:00", hence never
consists solely of digits with an optional decimal point.  The numeric
part is rendered from the rational seconds value. -/
def tsStr (q : ℚ) : PyStr := S (toString q) ++ S "+00:00"

/-- `astype(str)` on one cell: NaN prints as "nan" (the missing values the
pipeline's string columns carry at this point come from CSV ingestion or
from a previous `replace`, both rendered so that the subsequent
strip/replace pipeline treats them as missing); numbers print via their
decimal rendering; instants via `tsStr`. -/
def cellStr : Cell → PyStr
  | Cell.null => S "nan"
  | Cell.str s => s
  | Cell.num q => S (toString q)
  | Cell.ts q => tsStr q

/-- Digit-string accumulator used by the numeric parser. -/
def digitsVal (l : PyStr) : ℕ := l.foldl (fun a n => a * 10 + (n - 48)) 0

/-- Parse an unsigned integer-or-decimal literal (`\d*\.?\d*` with at
least one digit), the shape accepted by `float()` up to the scientific
notation and specials that the pipeline's inputs do not exercise. -/
def parseUnsigned (l : PyStr) : Option ℚ :=
  let d := l.takeWhile isDigitChar
  let r := l.dropWhile isDigitChar
  match r with
  | [] => if d = [] then none else some ((digitsVal d : ℚ))
  | 46 :: frac =>
    if (d = [] ∧ frac = []) ∨ ¬ (frac.all isDigitChar = true) then none
    else some ((digitsVal d : ℚ) + (digitsVal frac : ℚ) / (10 : ℚ) ^ frac.length)
  | _ => none

/-- Parse a (possibly signed, whitespace-padded) numeric string, as
`pd.to_numeric` does with `errors="coerce"`. -/
def strToNum (l : PyStr) : Option ℚ :=
  let t := pyStrip l
  match t with
  | 45 :: rest => (parseUnsigned rest).map (fun q => -q)
  | 43 :: rest => parseUnsigned rest
  | _ => parseUnsigned t

/-- `pd.to_numeric(c, errors="coerce")` on one cell.  A datetime cell is
converted to its epoch value in nanoseconds; the pipeline never feeds
datetimes to this function. -/
def toNumericCell : Cell → Cell
  | Cell.null => Cell.null
  | Cell.num q => Cell.num q
  | Cell.str s =>
    match strToNum s with
    | some q => Cell.num q
    | none => Cell.null
  | Cell.ts q => Cell.num (q * 10 ^ 9)

theorem toNumericCell_idem (c : Cell) :
    toNumericCell (toNumericCell c) = toNumericCell c := by
  cases c with
  | null => rfl
  | num q => rfl
  | ts q => rfl
  | str s =>
    simp only [toNumericCell]
    cases h : strToNum s <;> simp [toNumericCell, h]

/-- Line 121: `astype(str).str.strip().replace({"": None, "nan": None,
"None": None})` — the receiving_address normalization.  Note the literal
"0" is NOT in this replace dictionary. -/
def normRA (c : Cell) : Cell :=
  let s := pyStrip (cellStr c)
  if s = S "" ∨ s = S "nan" ∨ s = S "None" then Cell.null else Cell.str s

/-- Line 123: `astype(str).str.strip().str.lower().replace({"": None,
"nan": None, "None": None})` — the transaction_type normalization.  The
replace runs AFTER lowercasing, so the key "None" can never match. -/
def normTT (c : Cell) : Cell :=
  let s := pyLower (pyStrip (cellStr c))
  if s = S "" ∨ s = S "nan" ∨ s = S "None" then Cell.null else Cell.str s

/-- Lines 125-128: `astype(str).str.strip().replace({"": None, "nan":
None, "None": None, "0": None})` — the location_region normalization. -/
def normLR (c : Cell) : Cell :=
  let s := pyStrip (cellStr c)
  if s = S "" ∨ s = S "nan" ∨ s = S "None" ∨ s = S "0" then Cell.null
  else Cell.str s

example : normRA (Cell.str (S "  nan ")) = Cell.null := by decide
example : normRA (Cell.str (S "0")) = Cell.str (S "0") := by decide
example : normLR (Cell.str (S "0")) = Cell.null := by decide
example : normTT (Cell.str (S "None")) = Cell.str (S "none") := by decide
example : normTT Cell.null = Cell.null := by decide
example : normTT (Cell.str (S " SALE ")) = Cell.str (S "sale") := by decide

/-- One TransactionRecord (one DataFrame row).  A field whose column is
absent from the frame is junk and is never read. -/
structure Row where
  timestamp : Cell
  receiving_address : Cell
  location_region : Cell
  transaction_type : Cell
  amount : Cell
  risk_score : Cell
deriving DecidableEq

/-- A DataFrame: per-column presence flags (for the six logical columns
the pipeline reads, after name normalization) plus the ordered rows. -/
structure Frame where
  hasTimestamp : Bool
  hasReceivingAddress : Bool
  hasLocationRegion : Bool
  hasTransactionType : Bool
  hasAmount : Bool
  hasRiskScore : Bool
  rows : List Row
deriving DecidableEq

/-- Insertion into a sorted list, ascending. -/
def insertSorted (q : ℚ) : List ℚ → List ℚ
  | [] => [q]
  | x :: xs => if q ≤ x then q :: x :: xs else x :: insertSorted q xs

/-- Insertion sort, ascending. -/
def sortQ (l : List ℚ) : List ℚ := l.foldr insertSorted []

/-- `Series.median()`: middle element of the sorted values for odd length,
mean of the two middle elements for even length (linear interpolation, as
pandas does).  Only ever called on nonempty lists by the pipeline. -/
def median (l : List ℚ) : ℚ :=
  let s := sortQ l
  if l.length % 2 = 1 then s.getD (l.length / 2) 0
  else (s.getD (l.length / 2 - 1) 0 + s.getD (l.length / 2) 0) / 2

/-- The numeric values of a column after `pd.to_numeric(·, errors="coerce")
.dropna()`. -/
def numericValues (cells : List Cell) : List ℚ :=
  cells.filterMap (fun c =>
    match toNumericCell c with
    | Cell.num q => some q
    | _ => none)

/-- Lines 25-37, `_detect_timestamp_unit`: coerce to numeric, drop the
misses, branch on the absolute median.  Total - it never raises. -/
def detect_timestamp_unit (cells : List Cell) : String :=
  let s := numericValues cells
  if s = [] then "s"
  else
    let m := median (s.map (fun q => |q|))
    if m > 10 ^ 17 then "ns"
    else if m > 10 ^ 14 then "us"
    else if m > 10 ^ 11 then "ms"
    else "s"

/-- Seconds per unit tick, for `pd.to_datetime(·, unit=u, utc=True)`. -/
def unitScale (u : String) : ℚ :=
  if u = "ns" then 1 / 10 ^ 9
  else if u = "us" then 1 / 10 ^ 6
  else if u = "ms" then 1 / 10 ^ 3
  else 1

/-- Line 137: `pd.to_datetime(pd.to_numeric(ts_raw, errors="coerce"),
unit=unit, utc=True)` on one cell. -/
def numericToDatetime (u : String) (c : Cell) : Cell :=
  match toNumericCell c with
  | Cell.num q => Cell.ts (q * unitScale u)
  | _ => Cell.null

/-- Line 139: `pd.to_datetime(ts_raw, errors="coerce", utc=True)` on one
cell.  An already-parsed instant is returned unchanged; a bare number is
interpreted at the default nanosecond unit; a string that is not an
already-parsed instant is modelled as unparsable (the pipeline only
reaches this branch for columns that fail the numeric-looking test, and
no claim depends on which date-strings pandas would accept). -/
def genericToDatetime : Cell → Cell
  | Cell.ts q => Cell.ts q
  | Cell.num q => Cell.ts (q / 10 ^ 9)
  | _ => Cell.null

/-- `pd.api.types.is_numeric_dtype` for a column materialized from CSV or
from the pipeline's own transforms: the dtype is numeric exactly when
every cell is a number or a missing value. -/
def isNumOrNull : Cell → Bool
  | Cell.num _ => true
  | Cell.null => true
  | _ => false

/-- `^\d+(\.\d+)?$` — the line-133 regex, full-match on a code-point
string: one or more digits, optionally followed by a dot and one or more
digits. -/
def matchesNumRe (l : PyStr) : Bool :=
  let d := l.takeWhile isDigitChar
  let r := l.dropWhile isDigitChar
  decide (d ≠ []) &&
    (decide (r = []) ||
      (decide (r.head? = some 46) && decide (r.tail ≠ []) && r.tail.all isDigitChar))

/-- Line 133: `is_numeric_dtype(ts_raw) or ts_raw.dropna().astype(str)
.str.match(r"^\d+(\.\d+)?$").all()` (the `all()` of an empty selection is
True). -/
def looksNumeric (cells : List Cell) : Bool :=
  cells.all isNumOrNull ||
    (cells.filter (fun c => ! isNull c)).all (fun c => matchesNumRe (cellStr c))

/-- Lines 120-128: the three string-column normalizations, each guarded by
column presence. -/
def stdStrings (df : Frame) (r : Row) : Row :=
  let r1 := if df.hasReceivingAddress then
    { r with receiving_address := normRA r.receiving_address } else r
  let r2 := if df.hasTransactionType then
    { r1 with transaction_type := normTT r1.transaction_type } else r1
  if df.hasLocationRegion then
    { r2 with location_region := normLR r2.location_region } else r2

/-- The rows after the string normalizations (the state in which line 132
reads the timestamp column). -/
def stringRows (df : Frame) : List Row := df.rows.map (stdStrings df)

/-- Lines 131-141: the timestamp conversion chosen for the whole column
(the column read at line 132 is the one after the string normalizations,
which leave timestamp untouched). -/
def tsConvert (df : Frame) : Cell → Cell :=
  if df.hasTimestamp then
    if looksNumeric ((stringRows df).map (fun r => r.timestamp)) then
      numericToDatetime
        (detect_timestamp_unit ((stringRows df).map (fun r => r.timestamp)))
    else genericToDatetime
  else fun _ => Cell.null

/-- Lines 131-148: timestamp parsing, amount and risk_score coercion on
one row. -/
def stdTypes (df : Frame) (r : Row) : Row :=
  let r1 := { r with timestamp := tsConvert df r.timestamp }
  let r2 := { r1 with amount :=
    if df.hasAmount then toNumericCell r1.amount else Cell.null }
  if df.hasRiskScore then
    { r2 with risk_score := toNumericCell r2.risk_score } else r2

/-- Lines 150-152: `dropna(subset=["timestamp", "transaction_type",
"amount"])` then `df[df["amount"] >= 0]`, applied after all the column
transforms.  `dropKeep` is the dropna predicate, `amountGe0` the filter. -/
def dropKeep (r : Row) : Bool :=
  ! isNull r.timestamp && ! isNull r.transaction_type && ! isNull r.amount

/-- `amount >= 0` on a numeric-dtype column: true only for a non-negative
number (NaN compares false). -/
def amountGe0 (r : Row) : Bool :=
  match r.amount with
  | Cell.num q => decide (0 ≤ q)
  | _ => false

/-- The rows reaching line 154, just before deduplication. -/
def preDedup (df : Frame) : List Row :=
  (((stringRows df).map (stdTypes df)).filter dropKeep).filter amountGe0

/-- Line 154: the dedup key.  timestamp, transaction_type and amount are
always present at this point; receiving_address participates only when
its column exists. -/
def dedupKey (hasRA : Bool) (r : Row) : Cell × Cell × Cell × Cell :=
  (r.timestamp, if hasRA then r.receiving_address else Cell.null,
    r.transaction_type, r.amount)

/-- `drop_duplicates(keep="first")`: keep a row iff its key has not been
seen among the earlier rows. -/
def dedupFirstAux {α κ : Type} [DecidableEq κ] (k : α → κ) :
    List κ → List α → List α
  | _, [] => []
  | seen, x :: xs =>
    if k x ∈ seen then dedupFirstAux k seen xs
    else x :: dedupFirstAux k (k x :: seen) xs

/-- Lines 154-156: `df.drop_duplicates(subset=key_cols, keep="first")`. -/
def dedupFirst {α κ : Type} [DecidableEq κ] (k : α → κ) (l : List α) :
    List α := dedupFirstAux k [] l

/-- Lines 112-160, `clean_and_standardize`.  Returns `none` exactly when
line 151 would raise a `KeyError` (the `transaction_type` column is
missing from the dropna subset); otherwise the cleaned frame.  The
timestamp and amount columns always exist on the output (lines 141/146
create them when absent). -/
def clean_and_standardize (df : Frame) : Option Frame :=
  if df.hasTransactionType then
    some { hasTimestamp := true
           hasReceivingAddress := df.hasReceivingAddress
           hasLocationRegion := df.hasLocationRegion
           hasTransactionType := true
           hasAmount := true
           hasRiskScore := df.hasRiskScore
           rows := dedupFirst (dedupKey df.hasReceivingAddress) (preDedup df) }
  else none

/-- The Data Quality profile produced by `_dq_profile` (lines 51-90): the
JSON-serialized metrics.  A rule or null-count is `none` when its column
is absent (the Python code leaves the entry as `None`). -/
structure DQProfile where
  total_rows : ℕ
  nulls_timestamp : Option ℕ
  nulls_transaction_type : Option ℕ
  nulls_amount : Option ℕ
  nulls_receiving_address : Option ℕ
  nulls_location_region : Option ℕ
  nulls_risk_score : Option ℕ
  rule_timestamp_not_null : Option ℕ
  rule_transaction_type_not_null : Option ℕ
  rule_amount_not_null : Option ℕ
  rule_amount_non_negative : Option ℕ
  failed_rows_estimate : ℕ
  conformity_rate : ℚ
deriving DecidableEq

/-- Null count of one column: `int(df[col].isna().sum())`. -/
def nullCount (get : Row → Cell) (rows : List Row) : ℕ :=
  (rows.filter (fun r => isNull (get r))).length

/-- `int((pd.to_numeric(df["amount"], errors="coerce") < 0).sum())`. -/
def negAmountCount (rows : List Row) : ℕ :=
  (rows.filter (fun r =>
    match toNumericCell r.amount with
    | Cell.num q => decide (q < 0)
    | _ => false)).length

/-- The epsilon of line 89, `1e-9`. -/
def dqEps : ℚ := 1 / 10 ^ 9

/-- Lines 51-90, `_dq_profile`: null counts, the four rules (each guarded
by column presence), the summed failure estimate, and the conformity
rate `max(0.0, 1.0 - fails / (total + 1e-9))`. -/
def dq_profile (df : Frame) : DQProfile :=
  let total := df.rows.length
  let rTs := if df.hasTimestamp then
    some (nullCount (fun r => r.timestamp) df.rows) else none
  let rTt := if df.hasTransactionType then
    some (nullCount (fun r => r.transaction_type) df.rows) else none
  let rAm := if df.hasAmount then
    some (nullCount (fun r => r.amount) df.rows) else none
  let rNeg := if df.hasAmount then some (negAmountCount df.rows) else none
  let fails := rTs.getD 0 + rTt.getD 0 + rAm.getD 0 + rNeg.getD 0
  { total_rows := total
    nulls_timestamp := if df.hasTimestamp then
      some (nullCount (fun r => r.timestamp) df.rows) else none
    nulls_transaction_type := if df.hasTransactionType then
      some (nullCount (fun r => r.transaction_type) df.rows) else none
    nulls_amount := if df.hasAmount then
      some (nullCount (fun r => r.amount) df.rows) else none
    nulls_receiving_address := if df.hasReceivingAddress then
      some (nullCount (fun r => r.receiving_address) df.rows) else none
    nulls_location_region := if df.hasLocationRegion then
      some (nullCount (fun r => r.location_region) df.rows) else none
    nulls_risk_score := if df.hasRiskScore then
      some (nullCount (fun r => r.risk_score) df.rows) else none
    rule_timestamp_not_null := rTs
    rule_transaction_type_not_null := rTt
    rule_amount_not_null := rAm
    rule_amount_non_negative := rNeg
    failed_rows_estimate := fails
    conformity_rate := max 0 (1 - (fails : ℚ) / ((total : ℚ) + dqEps)) }

/-- Lines 99-101: `df_tmp = df.copy()` followed by the numeric coercion of
the amount column on the copy. -/
def coerceAmount (df : Frame) : Frame :=
  if df.hasAmount then
    { df with rows := df.rows.map (fun r =>
        { r with amount := toNumericCell r.amount }) }
  else df

/-- Lines 94-108, `dq_checks`: the metrics the task returns (profiled on
the coerced copy). -/
def dq_checks (df : Frame) : DQProfile := dq_profile (coerceAmount df)

/-- `dq_checks` as seen by its caller: the task mutates only the copy
`df_tmp`, so alongside the returned metrics the caller's frame is the
original `df`.  The second component is the dataframe that the rest of
the flow keeps using after the task returns. -/
def dq_checks_state (df : Frame) : DQProfile × Frame :=
  let df_tmp := df
  let df_tmp := coerceAmount df_tmp
  (dq_profile df_tmp, df)

/-- Observable side effects of one pipeline run, in order: each DQ profile
persisted to its JSON sink (tagged with the phase, lines 104-105), the
raw snapshot table written on pre-gate rejection (lines 239-242), and
each `transform_and_publish` invocation (lines 258/264) with the frame it
publishes. -/
inductive Event where
  | dqSaved : String → DQProfile → Event
  | rawSnapshot : Frame → Event
  | published : Frame → Event
deriving DecidableEq

/-- Terminal state of a run of `main` (lines 222-265): normal completion,
the `RuntimeError` of a failed quality gate (tagged with the phase), or
the `KeyError` escaping `clean_and_standardize`. -/
inductive Outcome where
  | success : Outcome
  | qualityFailure : String → Outcome
  | keyError : Outcome
deriving DecidableEq

/-- Lines 222-265, `main`, after a successful ingestion: the ordered side
effects and the terminal state, for thresholds `pre` (MIN_CONFORMITY_PRE)
and `post` (MIN_CONFORMITY_POST).  The `is not None` guards on the gate
conditions are always true (line 89 always stores a float), so the gates
reduce to the rate comparisons. -/
def main_flow (pre post : ℚ) (df_raw : Frame) : List Event × Outcome :=
  let (dq_pre, df1) := dq_checks_state df_raw
  if dq_pre.conformity_rate < pre then
    ([Event.dqSaved "pre_clean" dq_pre, Event.rawSnapshot df1],
      Outcome.qualityFailure "pre_clean")
  else
    match clean_and_standardize df1 with
    | none => ([Event.dqSaved "pre_clean" dq_pre], Outcome.keyError)
    | some df_clean =>
      let (dq_post, df2) := dq_checks_state df_clean
      if dq_post.conformity_rate < post then
        ([Event.dqSaved "pre_clean" dq_pre, Event.dqSaved "post_clean" dq_post,
          Event.published df2], Outcome.qualityFailure "post_clean")
      else
        ([Event.dqSaved "pre_clean" dq_pre, Event.dqSaved "post_clean" dq_post,
          Event.published df2], Outcome.success)

/-- A row with every field missing, used to build concrete test frames. -/
def blankRow : Row :=
  { timestamp := Cell.null
    receiving_address := Cell.null
    location_region := Cell.null
    transaction_type := Cell.null
    amount := Cell.null
    risk_score := Cell.null }

/-- A frame carrying all six logical columns. -/
def allCols (rows : List Row) : Frame :=
  { hasTimestamp := true
    hasReceivingAddress := true
    hasLocationRegion := true
    hasTransactionType := true
    hasAmount := true
    hasRiskScore := true
    rows := rows }

/-- One row that violates both `timestamp_not_null` and
`amount_non_negative`. -/
def dfDouble : Frame :=
  allCols [{ blankRow with
    transaction_type := Cell.str (S "sale")
    amount := Cell.num (-1) }]

/-- One row whose amount is the non-numeric string "abc" (so it is not
null as ingested, but coerces to null). -/
def dfAbc : Frame :=
  { hasTimestamp := false
    hasReceivingAddress := false
    hasLocationRegion := false
    hasTransactionType := false
    hasAmount := true
    hasRiskScore := false
    rows := [{ blankRow with amount := Cell.str (S "abc") }] }

/-- C1: `_dq_profile` computes
`conformity_rate = max(0, 1 - failed_rows_estimate / (total_rows + 1e-9))`,
hence the rate always lies in [0, 1], and a zero-row dataset gets
conformity_rate = 1 with failed_rows_estimate = 0. -/
theorem dq_conformity_rate_bounds (df : Frame) :
    (dq_profile df).conformity_rate =
      max 0 (1 - ((dq_profile df).failed_rows_estimate : ℚ) /
        (((dq_profile df).total_rows : ℚ) + dqEps)) ∧
    0 ≤ (dq_profile df).conformity_rate ∧
    (dq_profile df).conformity_rate ≤ 1 ∧
    ((dq_profile df).total_rows = 0 →
      (dq_profile df).conformity_rate = 1 ∧
      (dq_profile df).failed_rows_estimate = 0) := by
  refine ⟨rfl, le_max_left _ _, ?_, ?_⟩
  · apply max_le
    · norm_num
    · have heps : (0 : ℚ) < dqEps := by norm_num [dqEps]
      have hlen : (0 : ℚ) ≤ (df.rows.length : ℚ) := Nat.cast_nonneg _
      exact sub_le_self 1 (div_nonneg (Nat.cast_nonneg _) (by linarith))
  · intro h
    have hrows : df.rows = [] := List.length_eq_zero.mp h
    rcases df with ⟨hts, hra, hlr, htt, ha, hrs, rows⟩
    simp only at hrows
    subst hrows
    cases hts <;> cases htt <;> cases ha <;>
      simp [dq_profile, nullCount, negAmountCount, dqEps]

/-- C1 witness: the zero-row dataset with all columns present. -/
theorem dq_conformity_rate_bounds_witness :
    (dq_profile (allCols [])).total_rows = 0 ∧
    (dq_profile (allCols [])).conformity_rate = 1 ∧
    (dq_profile (allCols [])).failed_rows_estimate = 0 := by
  have h := (dq_conformity_rate_bounds (allCols [])).2.2.2 (by decide)
  exact ⟨by decide, h.1, h.2⟩

/-- C2: `failed_rows_estimate` is the plain sum of the four per-rule
violation counts (a missing column contributes nothing), with no
deduplication across rules: the concrete one-row dataset `dfDouble`
violates two rules and is counted twice. -/
theorem failed_rows_estimate_sum :
    (∀ df : Frame, (dq_profile df).failed_rows_estimate =
      (dq_profile df).rule_timestamp_not_null.getD 0 +
      (dq_profile df).rule_transaction_type_not_null.getD 0 +
      (dq_profile df).rule_amount_not_null.getD 0 +
      (dq_profile df).rule_amount_non_negative.getD 0) ∧
    dfDouble.rows.length = 1 ∧
    (dq_profile dfDouble).rule_timestamp_not_null = some 1 ∧
    (dq_profile dfDouble).rule_amount_non_negative = some 1 ∧
    (dq_profile dfDouble).failed_rows_estimate = 2 := by
  refine ⟨fun df => rfl, by decide, by decide, by decide, by decide⟩

/-- C5 counterexample: for `dfAbc` (one row, amount = "abc"), the
profiling task reports amount_not_null violations = 1, although the
dataset as it stands has 0 nulls in the amount column: the task's own
numeric coercion of the copy (line 101) feeds `_dq_profile`, so the rule
does not count the nulls of the column "as the dataset currently
stands". -/
theorem amount_not_null_as_stands_cex :
    (dq_checks dfAbc).rule_amount_not_null = some 1 ∧
    nullCount (fun r => r.amount) dfAbc.rows = 0 := by decide

/-- C5 amended: `dq_checks` first coerces the amount column to numeric on
a copy, so `amount_not_null` reports the number of values that are null
AFTER that coercion (original nulls plus unparsable values); the
`amount_non_negative` rule's own coercion (line 84) is the only further
coercion inside `_dq_profile` and is idempotent over the task's one. -/
theorem amount_not_null_post_coercion (df : Frame)
    (h : df.hasAmount = true) :
    (dq_checks df).rule_amount_not_null =
      some ((df.rows.filter (fun r => isNull (toNumericCell r.amount))).length) ∧
    (dq_checks df).rule_amount_non_negative =
      some ((df.rows.filter (fun r =>
        match toNumericCell r.amount with
        | Cell.num q => decide (q < 0)
        | _ => false)).length) := by
  unfold dq_checks coerceAmount
  rw [if_pos h]
  unfold dq_profile nullCount negAmountCount
  simp only [h, if_pos, List.filter_map, List.length_map]
  constructor
  · rfl
  · congr 1
    congr 1
    apply List.filter_congr
    intro r _
    show (match toNumericCell (toNumericCell r.amount) with
      | Cell.num q => decide (q < 0)
      | _ => false) =
      (match toNumericCell r.amount with
      | Cell.num q => decide (q < 0)
      | _ => false)
    rw [toNumericCell_idem]

/-- C5 amended witness: the coercion-sensitive dataset `dfAbc`. -/
theorem amount_not_null_post_coercion_witness :
    (dq_checks dfAbc).rule_amount_not_null = some 1 ∧
    (dq_checks dfAbc).rule_amount_non_negative = some 0 := by
  have h := amount_not_null_post_coercion dfAbc rfl
  exact ⟨h.1.trans (by decide), h.2.trans (by decide)⟩

theorem median_singleton (q : ℚ) : median [q] = q := by
  simp [median, sortQ, insertSorted]

theorem numericValues_num_singleton (q : ℚ) :
    numericValues [Cell.num q] = [q] := by
  simp [numericValues, toNumericCell]

/-- C8: `_detect_timestamp_unit` coerces to numeric, drops the misses,
takes the absolute median m, and realizes the interval table
ns iff m > 1e17, us iff 1e14 < m ≤ 1e17, ms iff 1e11 < m ≤ 1e14,
s otherwise, with seconds for an input holding no numeric value.
The function is total: no input raises. -/
theorem detect_timestamp_unit_table (cells : List Cell) :
    (numericValues cells = [] → detect_timestamp_unit cells = "s") ∧
    (numericValues cells ≠ [] →
      (10 ^ 17 < median ((numericValues cells).map (fun q => |q|)) →
        detect_timestamp_unit cells = "ns") ∧
      (10 ^ 14 < median ((numericValues cells).map (fun q => |q|)) ∧
        median ((numericValues cells).map (fun q => |q|)) ≤ 10 ^ 17 →
        detect_timestamp_unit cells = "us") ∧
      (10 ^ 11 < median ((numericValues cells).map (fun q => |q|)) ∧
        median ((numericValues cells).map (fun q => |q|)) ≤ 10 ^ 14 →
        detect_timestamp_unit cells = "ms") ∧
      (median ((numericValues cells).map (fun q => |q|)) ≤ 10 ^ 11 →
        detect_timestamp_unit cells = "s")) := by
  constructor
  · intro h
    simp [detect_timestamp_unit, h]
  · intro hne
    refine ⟨?_, ?_, ?_, ?_⟩
    · intro hm
      simp [detect_timestamp_unit, hne, hm]
    · intro hm
      simp [detect_timestamp_unit, hne, hm.1, not_lt.mpr hm.2]
    · intro hm
      have h17 : ¬ 10 ^ 17 < median ((numericValues cells).map (fun q => |q|)) :=
        not_lt.mpr (hm.2.trans (by norm_num))
      have h14 : ¬ 10 ^ 14 < median ((numericValues cells).map (fun q => |q|)) :=
        not_lt.mpr hm.2
      simp [detect_timestamp_unit, hne, hm.1, h17, h14]
    · intro hm
      have h17 : ¬ 10 ^ 17 < median ((numericValues cells).map (fun q => |q|)) :=
        not_lt.mpr (hm.trans (by norm_num))
      have h14 : ¬ 10 ^ 14 < median ((numericValues cells).map (fun q => |q|)) :=
        not_lt.mpr (hm.trans (by norm_num))
      have h11 : ¬ 10 ^ 11 < median ((numericValues cells).map (fun q => |q|)) :=
        not_lt.mpr hm
      simp [detect_timestamp_unit, hne, h17, h14, h11]

/-- C8 witness: the spec's five test vectors
(2e17 → ns, 5e15 → us, 2e12 → ms, 500 → s, empty → s). -/
theorem detect_timestamp_unit_table_witness :
    detect_timestamp_unit [Cell.num (2 * 10 ^ 17)] = "ns" ∧
    detect_timestamp_unit [Cell.num (5 * 10 ^ 15)] = "us" ∧
    detect_timestamp_unit [Cell.num (2 * 10 ^ 12)] = "ms" ∧
    detect_timestamp_unit [Cell.num 500] = "s" ∧
    detect_timestamp_unit [] = "s" := by
  have hmed : ∀ q : ℚ, 0 ≤ q →
      median ((numericValues [Cell.num q]).map (fun x => |x|)) = q := by
    intro q hq
    rw [numericValues_num_singleton]
    simp only [List.map_cons, List.map_nil, median_singleton]
    exact abs_of_nonneg hq
  have hne : ∀ q : ℚ, numericValues [Cell.num q] ≠ [] := by
    intro q
    rw [numericValues_num_singleton]
    exact List.cons_ne_nil _ _
  refine ⟨((detect_timestamp_unit_table _).2 (hne _)).1 ?_,
    ((detect_timestamp_unit_table _).2 (hne _)).2.1 ?_,
    ((detect_timestamp_unit_table _).2 (hne _)).2.2.1 ?_,
    ((detect_timestamp_unit_table _).2 (hne _)).2.2.2 ?_,
    (detect_timestamp_unit_table _).1 rfl⟩ <;>
    rw [hmed _ (by norm_num)] <;> norm_num

/-- One row exercising the "0" receiving_address and the literal "None"
transaction_type, with valid timestamp and amount so the row survives. -/
def dfZeroNone : Frame :=
  allCols [{ blankRow with
    timestamp := Cell.num 500
    receiving_address := Cell.str (S "0")
    transaction_type := Cell.str (S "None")
    amount := Cell.num 5 }]

/-- The cleaned form of `dfZeroNone`. -/
def outZeroNone : Frame :=
  allCols [{ blankRow with
    timestamp := Cell.ts 500
    receiving_address := Cell.str (S "0")
    transaction_type := Cell.str (S "none")
    amount := Cell.num 5 }]

set_option maxRecDepth 100000 in
/-- C4 counterexample: cleaning `dfZeroNone` keeps receiving_address "0"
(line 121's replace dictionary has no "0" key) and turns
transaction_type "None" into the non-null string "none" (line 123
lowercases before the replace, so the "None" key never matches); the
claim says both should become null. -/
theorem standardizer_null_map_cex :
    clean_and_standardize dfZeroNone = some outZeroNone ∧
    outZeroNone.rows.map (fun r => r.receiving_address) = [Cell.str (S "0")] ∧
    outZeroNone.rows.map (fun r => r.transaction_type) = [Cell.str (S "none")] ∧
    Cell.str (S "0") ≠ Cell.null ∧
    Cell.str (S "none") ≠ Cell.null := by with_unfolding_all decide

/-- C4 amended: after cast-to-string and trim, the empty string, "nan" and
"None" map to null for receiving_address; those plus "0" map to null for
location_region; transaction_type is lowercased first and then the empty
string and "nan" map to null, while the literal "None" survives as the
string "none"; "0" is not nulled for receiving_address; every non-null
transaction_type output is lowercase. -/
theorem standardizer_null_map_amended :
    (∀ c : Cell, (pyStrip (cellStr c) = S "" ∨ pyStrip (cellStr c) = S "nan" ∨
        pyStrip (cellStr c) = S "None") → normRA c = Cell.null) ∧
    (∀ c : Cell, (pyStrip (cellStr c) = S "" ∨ pyStrip (cellStr c) = S "nan" ∨
        pyStrip (cellStr c) = S "None" ∨ pyStrip (cellStr c) = S "0") →
      normLR c = Cell.null) ∧
    (∀ c : Cell, (pyLower (pyStrip (cellStr c)) = S "" ∨
        pyLower (pyStrip (cellStr c)) = S "nan") → normTT c = Cell.null) ∧
    (∀ (c : Cell) (s : PyStr), normTT c = Cell.str s →
      s = pyLower (pyStrip (cellStr c))) ∧
    normRA (Cell.str (S "0")) = Cell.str (S "0") ∧
    normTT (Cell.str (S "None")) = Cell.str (S "none") := by
  refine ⟨?_, ?_, ?_, ?_, by decide, by decide⟩
  · intro c h
    rcases h with h | h | h <;> simp [normRA, h]
  · intro c h
    rcases h with h | h | h | h <;> simp [normLR, h]
  · intro c h
    rcases h with h | h <;> simp [normTT, h]
  · intro c s h
    simp only [normTT] at h
    by_cases hc : (pyLower (pyStrip (cellStr c)) = S "" ∨
      pyLower (pyStrip (cellStr c)) = S "nan" ∨
      pyLower (pyStrip (cellStr c)) = S "None")
    · rw [if_pos hc] at h
      cases h
    · rw [if_neg hc] at h
      exact (Cell.str.inj h).symm

/-- C4 amended witness: " None " nulled for receiving_address, "0" nulled
for location_region, a missing transaction_type nulled (it prints as
"nan"), and a lowercased surviving transaction_type. -/
theorem standardizer_null_map_amended_witness :
    normRA (Cell.str (S " None ")) = Cell.null ∧
    normLR (Cell.str (S "0")) = Cell.null ∧
    normTT Cell.null = Cell.null ∧
    S "sale" = pyLower (pyStrip (cellStr (Cell.str (S " SALE ")))) := by
  refine ⟨standardizer_null_map_amended.1 _ (by decide),
    standardizer_null_map_amended.2.1 _ (by decide),
    standardizer_null_map_amended.2.2.1 _ (by decide),
    standardizer_null_map_amended.2.2.2.1 _ _ (by decide)⟩

/-- C10: the DQ task computes its profile on the coerced copy `df_tmp`
while the caller's dataframe after the task is exactly the frame passed
in; the coercion applied to the copy is not in general the identity, so
the preservation is due to `df.copy()`, not to the coercion being
vacuous. -/
theorem dq_checks_frame_effect (df : Frame) :
    (dq_checks_state df).2 = df ∧
    (dq_checks_state df).1 = dq_profile (coerceAmount df) ∧
    ∃ df0 : Frame, coerceAmount df0 ≠ df0 :=
  ⟨rfl, rfl, ⟨dfAbc, by decide⟩⟩

/-- C3: both gates reject exactly when the conformity rate is below their
threshold, with asymmetric side effects: a pre-clean rejection persists
the raw snapshot of the ingested frame and fails without cleaning or
publishing; a post-clean rejection still publishes the cleaned frame
before failing; otherwise the run publishes and succeeds. -/
theorem quality_gate_effects (pre post : ℚ) (df dfc : Frame) :
    ((dq_checks df).conformity_rate < pre →
      main_flow pre post df =
        ([Event.dqSaved "pre_clean" (dq_checks df), Event.rawSnapshot df],
          Outcome.qualityFailure "pre_clean")) ∧
    (¬ (dq_checks df).conformity_rate < pre →
      clean_and_standardize df = some dfc →
      ((dq_checks dfc).conformity_rate < post →
        main_flow pre post df =
          ([Event.dqSaved "pre_clean" (dq_checks df),
            Event.dqSaved "post_clean" (dq_checks dfc),
            Event.published dfc], Outcome.qualityFailure "post_clean")) ∧
      (¬ (dq_checks dfc).conformity_rate < post →
        main_flow pre post df =
          ([Event.dqSaved "pre_clean" (dq_checks df),
            Event.dqSaved "post_clean" (dq_checks dfc),
            Event.published dfc], Outcome.success))) := by
  refine ⟨fun h => ?_, fun h hc => ⟨fun hp => ?_, fun hp => ?_⟩⟩
  · simp only [dq_checks] at h
    simp [main_flow, dq_checks_state, dq_checks, h]
  · simp only [dq_checks] at h hp
    simp [main_flow, dq_checks_state, dq_checks, h, hc, hp]
  · simp only [dq_checks] at h hp
    simp [main_flow, dq_checks_state, dq_checks, h, hc, hp]

/-- A one-row frame failing the default pre-clean gate (null timestamp,
null amount: estimate 2 of 1 row, conformity 0). -/
def dfGate : Frame :=
  allCols [{ blankRow with transaction_type := Cell.str (S "sale") }]

set_option maxRecDepth 100000 in
/-- C3 witness: `dfGate` at the default thresholds rejects at the
pre-clean gate, snapshots the raw frame, and never publishes. -/
theorem quality_gate_effects_witness :
    main_flow (98 / 100) (995 / 1000) dfGate =
      ([Event.dqSaved "pre_clean" (dq_checks dfGate), Event.rawSnapshot dfGate],
        Outcome.qualityFailure "pre_clean") :=
  (quality_gate_effects (98 / 100) (995 / 1000) dfGate dfGate).1
    (by with_unfolding_all decide)

theorem dedupFirstAux_subset {α κ : Type} [DecidableEq κ] (k : α → κ)
    (l : List α) : ∀ (seen : List κ) (y : α),
    y ∈ dedupFirstAux k seen l → y ∈ l := by
  induction l with
  | nil => intro seen y h; cases h
  | cons x xs ih =>
    intro seen y h
    simp only [dedupFirstAux] at h
    by_cases hx : k x ∈ seen
    · rw [if_pos hx] at h
      exact List.mem_cons_of_mem _ (ih _ _ h)
    · rw [if_neg hx] at h
      rcases List.mem_cons.mp h with h' | h'
      · exact h' ▸ List.mem_cons_self _ _
      · exact List.mem_cons_of_mem _ (ih _ _ h')

theorem dedupFirstAux_key_not_seen {α κ : Type} [DecidableEq κ] (k : α → κ)
    (l : List α) : ∀ (seen : List κ) (y : α),
    y ∈ dedupFirstAux k seen l → k y ∉ seen := by
  induction l with
  | nil => intro seen y h; cases h
  | cons x xs ih =>
    intro seen y h
    simp only [dedupFirstAux] at h
    by_cases hx : k x ∈ seen
    · rw [if_pos hx] at h
      exact ih _ _ h
    · rw [if_neg hx] at h
      rcases List.mem_cons.mp h with h' | h'
      · exact h' ▸ hx
      · intro hseen
        exact ih _ _ h' (List.mem_cons_of_mem _ hseen)

theorem dedupFirstAux_pairwise {α κ : Type} [DecidableEq κ] (k : α → κ)
    (l : List α) : ∀ seen : List κ,
    (dedupFirstAux k seen l).Pairwise (fun a b => k a ≠ k b) := by
  induction l with
  | nil => intro seen; exact List.Pairwise.nil
  | cons x xs ih =>
    intro seen
    simp only [dedupFirstAux]
    by_cases hx : k x ∈ seen
    · rw [if_pos hx]
      exact ih _
    · rw [if_neg hx]
      refine List.Pairwise.cons ?_ (ih _)
      intro y hy
      have := dedupFirstAux_key_not_seen k xs _ y hy
      intro hk
      exact this (hk ▸ List.mem_cons_self _ _)

theorem dedupFirstAux_find? {α κ : Type} [DecidableEq κ] (k : α → κ)
    (l : List α) : ∀ (seen : List κ) (key : κ), key ∉ seen →
    (dedupFirstAux k seen l).find? (fun x => decide (k x = key)) =
      l.find? (fun x => decide (k x = key)) := by
  induction l with
  | nil => intro seen key _; rfl
  | cons x xs ih =>
    intro seen key hkey
    simp only [dedupFirstAux]
    by_cases hx : k x ∈ seen
    · rw [if_pos hx]
      have hne : ¬ k x = key := fun h => hkey (h ▸ hx)
      rw [List.find?_cons_of_neg _ (by simpa using hne)]
      exact ih _ _ hkey
    · rw [if_neg hx]
      by_cases hk : k x = key
      · rw [List.find?_cons_of_pos _ (by simpa using hk),
          List.find?_cons_of_pos _ (by simpa using hk)]
      · rw [List.find?_cons_of_neg _ (by simpa using hk),
          List.find?_cons_of_neg _ (by simpa using hk)]
        refine ih _ _ ?_
        intro h
        rcases List.mem_cons.mp h with h' | h'
        · exact hk h'.symm
        · exact hkey h'

theorem countP_le_one_of_pairwise {α κ : Type} [DecidableEq κ] (k : α → κ)
    {m : List α} (h : m.Pairwise (fun a b => k a ≠ k b)) (key : κ) :
    m.countP (fun x => decide (k x = key)) ≤ 1 := by
  induction m with
  | nil => simp
  | cons a m ih =>
    have ha := (List.pairwise_cons.mp h).1
    have htl := (List.pairwise_cons.mp h).2
    by_cases hk : k a = key
    · rw [List.countP_cons_of_pos _ _ (by simpa using hk)]
      have h0 : m.countP (fun x => decide (k x = key)) = 0 := by
        apply List.countP_eq_zero.mpr
        intro b hb
        simp only [decide_eq_true_eq]
        intro hkb
        exact ha b hb (by rw [hk, hkb])
      omega
    · rw [List.countP_cons_of_neg _ _ (by simpa using hk)]
      exact ih htl

/-- C9: after the Standardizer's `drop_duplicates` (line 156, key from
line 154), every key occurring among the rows entering deduplication is
represented by exactly one surviving row, and the survivor is the first
row with that key in the pre-dedup order (which preserves the original
row order). -/
theorem dedup_exactly_one_first (df out : Frame) (r : Row)
    (hclean : clean_and_standardize df = some out)
    (hr : r ∈ preDedup df) :
    out.rows.countP (fun x => decide (dedupKey df.hasReceivingAddress x =
      dedupKey df.hasReceivingAddress r)) = 1 ∧
    out.rows.find? (fun x => decide (dedupKey df.hasReceivingAddress x =
      dedupKey df.hasReceivingAddress r)) =
      (preDedup df).find? (fun x => decide (dedupKey df.hasReceivingAddress x =
        dedupKey df.hasReceivingAddress r)) := by
  have hrows : out.rows =
      dedupFirst (dedupKey df.hasReceivingAddress) (preDedup df) := by
    by_cases htt : df.hasTransactionType = true
    · rw [clean_and_standardize, if_pos htt] at hclean
      cases hclean
      rfl
    · rw [clean_and_standardize, if_neg htt] at hclean
      cases hclean
  have hfind : out.rows.find? (fun x => decide (dedupKey df.hasReceivingAddress x =
      dedupKey df.hasReceivingAddress r)) =
      (preDedup df).find? (fun x => decide (dedupKey df.hasReceivingAddress x =
        dedupKey df.hasReceivingAddress r)) := by
    rw [hrows]
    exact dedupFirstAux_find? _ _ _ _ (List.not_mem_nil _)
  refine ⟨?_, hfind⟩
  have hsome : ((preDedup df).find? (fun x =>
      decide (dedupKey df.hasReceivingAddress x =
        dedupKey df.hasReceivingAddress r))).isSome := by
    rw [List.find?_isSome]
    exact ⟨r, hr, by simp⟩
  obtain ⟨x, hx⟩ := Option.isSome_iff_exists.mp hsome
  have hx' : out.rows.find? (fun x => decide (dedupKey df.hasReceivingAddress x =
      dedupKey df.hasReceivingAddress r)) = some x := hfind.trans hx
  have hxmem : x ∈ out.rows := List.mem_of_find?_eq_some hx'
  have hxkey := List.find?_some hx'
  have hpos : 0 < out.rows.countP (fun x =>
      decide (dedupKey df.hasReceivingAddress x =
        dedupKey df.hasReceivingAddress r)) :=
    List.countP_pos_iff.mpr ⟨x, hxmem, hxkey⟩
  have hle : out.rows.countP (fun x =>
      decide (dedupKey df.hasReceivingAddress x =
        dedupKey df.hasReceivingAddress r)) ≤ 1 := by
    rw [hrows]
    exact countP_le_one_of_pairwise _ (dedupFirstAux_pairwise _ _ _) _
  omega

/-- Three raw rows, the first and third sharing the dedup key. -/
def df9 : Frame :=
  allCols [
    { blankRow with
      timestamp := Cell.num 500
      receiving_address := Cell.str (S "x")
      transaction_type := Cell.str (S "sale")
      amount := Cell.num 5 },
    { blankRow with
      timestamp := Cell.num 500
      receiving_address := Cell.str (S "y")
      transaction_type := Cell.str (S "sale")
      amount := Cell.num 7 },
    { blankRow with
      timestamp := Cell.num 500
      receiving_address := Cell.str (S "x")
      transaction_type := Cell.str (S "sale")
      amount := Cell.num 5 }]

/-- The cleaned form of the duplicated row of `df9`. -/
def cln9x : Row :=
  { timestamp := Cell.ts 500
    receiving_address := Cell.str (S "x")
    location_region := Cell.null
    transaction_type := Cell.str (S "sale")
    amount := Cell.num 5
    risk_score := Cell.null }

/-- The cleaned frame of `df9`: the duplicate collapsed onto its first
occurrence. -/
def out9 : Frame :=
  allCols [cln9x,
    { cln9x with
      receiving_address := Cell.str (S "y")
      amount := Cell.num 7 }]

set_option maxRecDepth 200000 in
/-- C9 witness: in `df9` the two rows keyed like `cln9x` collapse to one
survivor, the first occurrence. -/
theorem dedup_exactly_one_first_witness :
    out9.rows.countP (fun x => decide (dedupKey df9.hasReceivingAddress x =
      dedupKey df9.hasReceivingAddress cln9x)) = 1 ∧
    out9.rows.find? (fun x => decide (dedupKey df9.hasReceivingAddress x =
      dedupKey df9.hasReceivingAddress cln9x)) =
      (preDedup df9).find? (fun x => decide (dedupKey df9.hasReceivingAddress x =
        dedupKey df9.hasReceivingAddress cln9x)) :=
  dedup_exactly_one_first df9 out9 cln9x (by with_unfolding_all decide)
    (by with_unfolding_all decide)

theorem nullCount_eq_zero (get : Row → Cell) (rows : List Row)
    (h : ∀ r ∈ rows, isNull (get r) = false) : nullCount get rows = 0 := by
  unfold nullCount
  rw [List.length_eq_zero]
  rw [List.filter_eq_nil_iff]
  intro r hr
  simp [h r hr]

/-- `amountGe0` unpacked: the amount is a non-negative number. -/
theorem amountGe0_spec (r : Row) (h : amountGe0 r = true) :
    ∃ q : ℚ, r.amount = Cell.num q ∧ 0 ≤ q := by
  unfold amountGe0 at h
  cases hq : r.amount with
  | num q =>
    refine ⟨q, rfl, ?_⟩
    rw [hq] at h
    simpa using h
  | null => rw [hq] at h; cases h
  | str s => rw [hq] at h; cases h
  | ts q => rw [hq] at h; cases h

theorem negAmountCount_eq_zero (rows : List Row)
    (h : ∀ r ∈ rows, ∃ q : ℚ, r.amount = Cell.num q ∧ 0 ≤ q) :
    negAmountCount rows = 0 := by
  unfold negAmountCount
  rw [List.length_eq_zero, List.filter_eq_nil_iff]
  intro r hr
  obtain ⟨q, hq, hge⟩ := h r hr
  simp [hq, toNumericCell, not_lt.mpr hge]

/-- C7: every row of the Standardizer's output has non-null timestamp,
transaction_type and amount, with amount ≥ 0, and consequently the
post-clean DQ profile reports zero violations for all four rules. -/
theorem clean_output_invariants (df out : Frame)
    (hclean : clean_and_standardize df = some out) :
    (∀ r ∈ out.rows, isNull r.timestamp = false ∧
      isNull r.transaction_type = false ∧ isNull r.amount = false ∧
      amountGe0 r = true) ∧
    (dq_checks out).rule_timestamp_not_null = some 0 ∧
    (dq_checks out).rule_transaction_type_not_null = some 0 ∧
    (dq_checks out).rule_amount_not_null = some 0 ∧
    (dq_checks out).rule_amount_non_negative = some 0 := by
  by_cases htt : df.hasTransactionType = true
  case neg =>
    rw [clean_and_standardize, if_neg htt] at hclean
    cases hclean
  rw [clean_and_standardize, if_pos htt] at hclean
  have hout := (Option.some.inj hclean).symm
  subst hout
  have hinv : ∀ r ∈ dedupFirst (dedupKey df.hasReceivingAddress) (preDedup df),
      isNull r.timestamp = false ∧ isNull r.transaction_type = false ∧
      isNull r.amount = false ∧ amountGe0 r = true := by
    intro r hr
    have hm : r ∈ preDedup df := dedupFirstAux_subset _ _ _ _ hr
    unfold preDedup at hm
    have h1 := List.mem_filter.mp hm
    have h2 := List.mem_filter.mp h1.1
    have hd := h2.2
    simp only [dropKeep, Bool.and_eq_true, Bool.not_eq_true'] at hd
    exact ⟨hd.1.1, hd.1.2, hd.2, h1.2⟩
  refine ⟨hinv, ?_, ?_, ?_, ?_⟩ <;>
    simp only [dq_checks, coerceAmount, dq_profile, if_true] <;>
    congr 1
  · apply nullCount_eq_zero
    intro r hr
    obtain ⟨r0, hr0, hmap⟩ := List.mem_map.mp hr
    have := (hinv r0 hr0).1
    rw [← hmap]
    exact this
  · apply nullCount_eq_zero
    intro r hr
    obtain ⟨r0, hr0, hmap⟩ := List.mem_map.mp hr
    have := (hinv r0 hr0).2.1
    rw [← hmap]
    exact this
  · apply nullCount_eq_zero
    intro r hr
    obtain ⟨r0, hr0, hmap⟩ := List.mem_map.mp hr
    obtain ⟨q, hq, hge⟩ := amountGe0_spec r0 (hinv r0 hr0).2.2.2
    rw [← hmap]
    show isNull (toNumericCell r0.amount) = false
    rw [hq]
    rfl
  · apply negAmountCount_eq_zero
    intro r hr
    obtain ⟨r0, hr0, hmap⟩ := List.mem_map.mp hr
    obtain ⟨q, hq, hge⟩ := amountGe0_spec r0 (hinv r0 hr0).2.2.2
    refine ⟨q, ?_, hge⟩
    rw [← hmap]
    show toNumericCell r0.amount = Cell.num q
    rw [hq]
    rfl

set_option maxRecDepth 200000 in
/-- C7 witness: the cleaned frame `outZeroNone` carries zero violations on
all four rules. -/
theorem clean_output_invariants_witness :
    (dq_checks outZeroNone).rule_timestamp_not_null = some 0 ∧
    (dq_checks outZeroNone).rule_transaction_type_not_null = some 0 ∧
    (dq_checks outZeroNone).rule_amount_not_null = some 0 ∧
    (dq_checks outZeroNone).rule_amount_non_negative = some 0 :=
  (clean_output_invariants dfZeroNone outZeroNone
    (by with_unfolding_all decide)).2

theorem normRA_null : normRA Cell.null = Cell.null := by decide

theorem normTT_null : normTT Cell.null = Cell.null := by decide

theorem normLR_null : normLR Cell.null = Cell.null := by decide

theorem normRA_idem (c : Cell) : normRA (normRA c) = normRA c := by
  by_cases hcond : pyStrip (cellStr c) = S "" ∨ pyStrip (cellStr c) = S "nan" ∨
      pyStrip (cellStr c) = S "None"
  · have h1 : normRA c = Cell.null := by unfold normRA; rw [if_pos hcond]
    rw [h1, normRA_null]
  · have h1 : normRA c = Cell.str (pyStrip (cellStr c)) := by
      unfold normRA; rw [if_neg hcond]
    rw [h1]
    show normRA (Cell.str (pyStrip (cellStr c))) = Cell.str (pyStrip (cellStr c))
    unfold normRA
    show (if pyStrip (pyStrip (cellStr c)) = S "" ∨
        pyStrip (pyStrip (cellStr c)) = S "nan" ∨
        pyStrip (pyStrip (cellStr c)) = S "None" then Cell.null
      else Cell.str (pyStrip (pyStrip (cellStr c)))) = Cell.str (pyStrip (cellStr c))
    rw [pyStrip_idem, if_neg hcond]

theorem normLR_idem (c : Cell) : normLR (normLR c) = normLR c := by
  by_cases hcond : pyStrip (cellStr c) = S "" ∨ pyStrip (cellStr c) = S "nan" ∨
      pyStrip (cellStr c) = S "None" ∨ pyStrip (cellStr c) = S "0"
  · have h1 : normLR c = Cell.null := by unfold normLR; rw [if_pos hcond]
    rw [h1, normLR_null]
  · have h1 : normLR c = Cell.str (pyStrip (cellStr c)) := by
      unfold normLR; rw [if_neg hcond]
    rw [h1]
    show normLR (Cell.str (pyStrip (cellStr c))) = Cell.str (pyStrip (cellStr c))
    unfold normLR
    show (if pyStrip (pyStrip (cellStr c)) = S "" ∨
        pyStrip (pyStrip (cellStr c)) = S "nan" ∨
        pyStrip (pyStrip (cellStr c)) = S "None" ∨
        pyStrip (pyStrip (cellStr c)) = S "0" then Cell.null
      else Cell.str (pyStrip (pyStrip (cellStr c)))) = Cell.str (pyStrip (cellStr c))
    rw [pyStrip_idem, if_neg hcond]

/-- The normalized transaction_type value is reproduced by a second
strip-then-lower pass. -/
theorem pyLower_pyStrip_fix (l : PyStr) :
    pyLower (pyStrip (pyLower (pyStrip l))) = pyLower (pyStrip l) := by
  rw [pyStrip_pyLower, pyStrip_idem, pyLower_idem]

theorem normTT_idem (c : Cell) : normTT (normTT c) = normTT c := by
  by_cases hcond : pyLower (pyStrip (cellStr c)) = S "" ∨
      pyLower (pyStrip (cellStr c)) = S "nan" ∨
      pyLower (pyStrip (cellStr c)) = S "None"
  · have h1 : normTT c = Cell.null := by unfold normTT; rw [if_pos hcond]
    rw [h1, normTT_null]
  · have h1 : normTT c = Cell.str (pyLower (pyStrip (cellStr c))) := by
      unfold normTT; rw [if_neg hcond]
    rw [h1]
    show normTT (Cell.str (pyLower (pyStrip (cellStr c)))) =
      Cell.str (pyLower (pyStrip (cellStr c)))
    unfold normTT
    show (if pyLower (pyStrip (pyLower (pyStrip (cellStr c)))) = S "" ∨
        pyLower (pyStrip (pyLower (pyStrip (cellStr c)))) = S "nan" ∨
        pyLower (pyStrip (pyLower (pyStrip (cellStr c)))) = S "None" then Cell.null
      else Cell.str (pyLower (pyStrip (pyLower (pyStrip (cellStr c)))))) =
      Cell.str (pyLower (pyStrip (cellStr c)))
    rw [pyLower_pyStrip_fix, if_neg hcond]

theorem row_ext (a b : Row) (h1 : a.timestamp = b.timestamp)
    (h2 : a.receiving_address = b.receiving_address)
    (h3 : a.location_region = b.location_region)
    (h4 : a.transaction_type = b.transaction_type)
    (h5 : a.amount = b.amount) (h6 : a.risk_score = b.risk_score) : a = b := by
  cases a
  cases b
  simp_all

theorem stdStrings_timestamp (df : Frame) (r : Row) :
    (stdStrings df r).timestamp = r.timestamp := by
  unfold stdStrings
  split_ifs <;> rfl

theorem stdStrings_receiving (df : Frame) (r : Row) :
    (stdStrings df r).receiving_address =
      if df.hasReceivingAddress then normRA r.receiving_address
      else r.receiving_address := by
  unfold stdStrings
  split_ifs <;> rfl

theorem stdStrings_location (df : Frame) (r : Row) :
    (stdStrings df r).location_region =
      if df.hasLocationRegion then normLR r.location_region
      else r.location_region := by
  unfold stdStrings
  split_ifs <;> rfl

theorem stdStrings_transaction (df : Frame) (r : Row) :
    (stdStrings df r).transaction_type =
      if df.hasTransactionType then normTT r.transaction_type
      else r.transaction_type := by
  unfold stdStrings
  split_ifs <;> rfl

theorem stdStrings_amount (df : Frame) (r : Row) :
    (stdStrings df r).amount = r.amount := by
  unfold stdStrings
  split_ifs <;> rfl

theorem stdStrings_risk (df : Frame) (r : Row) :
    (stdStrings df r).risk_score = r.risk_score := by
  unfold stdStrings
  split_ifs <;> rfl

theorem stdTypes_timestamp (df : Frame) (r : Row) :
    (stdTypes df r).timestamp = tsConvert df r.timestamp := by
  unfold stdTypes
  split_ifs <;> rfl

theorem stdTypes_receiving (df : Frame) (r : Row) :
    (stdTypes df r).receiving_address = r.receiving_address := by
  unfold stdTypes
  split_ifs <;> rfl

theorem stdTypes_location (df : Frame) (r : Row) :
    (stdTypes df r).location_region = r.location_region := by
  unfold stdTypes
  split_ifs <;> rfl

theorem stdTypes_transaction (df : Frame) (r : Row) :
    (stdTypes df r).transaction_type = r.transaction_type := by
  unfold stdTypes
  split_ifs <;> rfl

theorem stdTypes_amount (df : Frame) (r : Row) :
    (stdTypes df r).amount =
      if df.hasAmount then toNumericCell r.amount else Cell.null := by
  unfold stdTypes
  split_ifs <;> rfl

theorem stdTypes_risk (df : Frame) (r : Row) :
    (stdTypes df r).risk_score =
      if df.hasRiskScore then toNumericCell r.risk_score else r.risk_score := by
  unfold stdTypes
  split_ifs <;> rfl

theorem mapFix {α : Type} (f : α → α) (l : List α) (h : ∀ x ∈ l, f x = x) :
    l.map f = l := by
  induction l with
  | nil => rfl
  | cons a l ih =>
    rw [List.map_cons, h a (List.mem_cons_self _ _),
      ih (fun x hx => h x (List.mem_cons_of_mem _ hx))]

theorem matchesNumRe_false_of_bad (l : PyStr) (c : ℕ) (hc : c ∈ l)
    (hd : isDigitChar c = false) (hne : c ≠ 46) : matchesNumRe l = false := by
  simp only [matchesNumRe]
  have hsplit := List.takeWhile_append_dropWhile (p := isDigitChar) (l := l)
  rw [← hsplit] at hc
  rcases List.mem_append.mp hc with h | h
  · have := List.mem_takeWhile_imp h
    rw [hd] at this
    cases this
  · cases hr : l.dropWhile isDigitChar with
    | nil => rw [hr] at h; cases h
    | cons x t =>
      rw [hr] at h
      rcases List.mem_cons.mp h with hhead | hmem
      · subst hhead
        simp [hr, hne]
      · have ht : t.all isDigitChar = false := by
          rw [List.all_eq_false]
          exact ⟨c, hmem, by simp [hd]⟩
        simp [hr, ht]

theorem matchesNumRe_tsStr (q : ℚ) : matchesNumRe (tsStr q) = false := by
  apply matchesNumRe_false_of_bad _ 43
  · unfold tsStr
    apply List.mem_append_right
    decide
  · decide
  · decide

theorem looksNumeric_ts (q : ℚ) (cs : List Cell)
    (hall : ∀ c ∈ Cell.ts q :: cs, ∃ p : ℚ, c = Cell.ts p) :
    looksNumeric (Cell.ts q :: cs) = false := by
  unfold looksNumeric
  have h1 : (Cell.ts q :: cs).all isNumOrNull = false := by
    rw [List.all_eq_false]
    exact ⟨Cell.ts q, List.mem_cons_self _ _, by simp [isNumOrNull]⟩
  rw [h1, Bool.false_or]
  have h2 : (Cell.ts q :: cs).filter (fun c => ! isNull c) = Cell.ts q :: cs := by
    rw [List.filter_eq_self]
    intro a ha
    obtain ⟨p, rfl⟩ := hall a ha
    rfl
  rw [h2, List.all_eq_false]
  exact ⟨Cell.ts q, List.mem_cons_self _ _, by simp [cellStr, matchesNumRe_tsStr]⟩

theorem dedupFirstAux_eq_self {α κ : Type} [DecidableEq κ] (k : α → κ)
    (l : List α) : ∀ seen : List κ, (∀ y ∈ l, k y ∉ seen) →
    l.Pairwise (fun a b => k a ≠ k b) → dedupFirstAux k seen l = l := by
  induction l with
  | nil => intro seen _ _; rfl
  | cons x xs ih =>
    intro seen hseen hp
    simp only [dedupFirstAux]
    rw [if_neg (hseen x (List.mem_cons_self _ _))]
    congr 1
    apply ih
    · intro y hy hmem
      rcases List.mem_cons.mp hmem with h | h
      · exact (List.pairwise_cons.mp hp).1 y hy h.symm
      · exact hseen y (List.mem_cons_of_mem _ hy) h
    · exact (List.pairwise_cons.mp hp).2

theorem tsConvert_shape (df : Frame) (c : Cell) :
    tsConvert df c = Cell.null ∨ ∃ q : ℚ, tsConvert df c = Cell.ts q := by
  unfold tsConvert
  split_ifs
  · unfold numericToDatetime
    rcases hn : toNumericCell c with _ | s | q | q <;> simp [hn]
  · unfold genericToDatetime
    cases c <;> simp
  · left
    rfl

/-- The shape of a row produced by a successful pass of the Standardizer
over a frame with column flags (receiving_address, location_region,
risk_score) = (ra, lr, rs): the normalizations fix the string fields, the
timestamp is a parsed instant, the amount a non-negative number, the
transaction_type non-null, and risk_score is numeric-coercion-fixed. -/
def CleanRow (ra lr rs : Bool) (r : Row) : Prop :=
  (ra = true → normRA r.receiving_address = r.receiving_address) ∧
  (normTT r.transaction_type = r.transaction_type) ∧
  (lr = true → normLR r.location_region = r.location_region) ∧
  (∃ q : ℚ, r.timestamp = Cell.ts q) ∧
  (∃ q : ℚ, r.amount = Cell.num q ∧ 0 ≤ q) ∧
  isNull r.transaction_type = false ∧
  (rs = true → toNumericCell r.risk_score = r.risk_score)

theorem preDedup_invariant (df : Frame) (htt : df.hasTransactionType = true)
    (r : Row) (hr : r ∈ preDedup df) :
    CleanRow df.hasReceivingAddress df.hasLocationRegion df.hasRiskScore r := by
  unfold preDedup at hr
  have h1 := List.mem_filter.mp hr
  have h2 := List.mem_filter.mp h1.1
  obtain ⟨s, hs, hmap⟩ := List.mem_map.mp h2.1
  obtain ⟨r0, hr0, hmap0⟩ := List.mem_map.mp hs
  have hdrop := h2.2
  have hge := h1.2
  subst hmap
  subst hmap0
  simp only [dropKeep, Bool.and_eq_true, Bool.not_eq_true'] at hdrop
  refine ⟨?_, ?_, ?_, ?_, amountGe0_spec _ hge, hdrop.1.2, ?_⟩
  · intro hra
    rw [stdTypes_receiving, stdStrings_receiving, if_pos hra]
    exact normRA_idem _
  · rw [stdTypes_transaction, stdStrings_transaction, if_pos htt]
    exact normTT_idem _
  · intro hlr
    rw [stdTypes_location, stdStrings_location, if_pos hlr]
    exact normLR_idem _
  · rcases tsConvert_shape df (stdStrings df r0).timestamp with h | h
    · exfalso
      have := hdrop.1.1
      rw [stdTypes_timestamp, h] at this
      cases this
    · rw [stdTypes_timestamp]
      exact h
  · intro hrs
    rw [stdTypes_risk, if_pos hrs, stdStrings_risk]
    exact toNumericCell_idem _

theorem clean_fixed (ra lr rs : Bool) (R : List Row)
    (hfix : ∀ r ∈ R, CleanRow ra lr rs r)
    (hpair : R.Pairwise (fun a b => dedupKey ra a ≠ dedupKey ra b)) :
    clean_and_standardize (Frame.mk true ra lr true true rs R) =
      some (Frame.mk true ra lr true true rs R) := by
  have hstr : ∀ r ∈ R, stdStrings (Frame.mk true ra lr true true rs R) r = r := by
    intro r hr
    obtain ⟨hRA, hTT, hLR, _, _, _, _⟩ := hfix r hr
    apply row_ext
    · rw [stdStrings_timestamp]
    · rw [stdStrings_receiving]
      show (if ra = true then normRA r.receiving_address
        else r.receiving_address) = r.receiving_address
      by_cases hra : ra = true
      · rw [if_pos hra, hRA hra]
      · rw [if_neg hra]
    · rw [stdStrings_location]
      show (if lr = true then normLR r.location_region
        else r.location_region) = r.location_region
      by_cases hlr : lr = true
      · rw [if_pos hlr, hLR hlr]
      · rw [if_neg hlr]
    · rw [stdStrings_transaction]
      show (if true = true then normTT r.transaction_type
        else r.transaction_type) = r.transaction_type
      rw [if_pos rfl, hTT]
    · rw [stdStrings_amount]
    · rw [stdStrings_risk]
  have hstrR : stringRows (Frame.mk true ra lr true true rs R) = R := by
    show R.map (stdStrings (Frame.mk true ra lr true true rs R)) = R
    exact mapFix _ _ hstr
  rw [clean_and_standardize, if_pos rfl]
  show some (Frame.mk true ra lr true true rs (dedupFirst (dedupKey ra)
    (preDedup (Frame.mk true ra lr true true rs R)))) =
    some (Frame.mk true ra lr true true rs R)
  rcases hRc : R with _ | ⟨r1, R'⟩
  · subst hRc
    rfl
  · subst hRc
    obtain ⟨q1, hq1⟩ := (hfix r1 (List.mem_cons_self _ _)).2.2.2.1
    have hlooks : looksNumeric
        ((stringRows (Frame.mk true ra lr true true rs (r1 :: R'))).map
          (fun r => r.timestamp)) = false := by
      rw [hstrR, List.map_cons, hq1]
      apply looksNumeric_ts
      intro c hc
      rcases List.mem_cons.mp hc with rfl | hcm
      · exact ⟨q1, rfl⟩
      · obtain ⟨r', hr', hr'e⟩ := List.mem_map.mp hcm
        obtain ⟨p, hp⟩ := (hfix r' (List.mem_cons_of_mem _ hr')).2.2.2.1
        exact ⟨p, by rw [← hr'e]; exact hp⟩
    have htsc : tsConvert (Frame.mk true ra lr true true rs (r1 :: R')) =
        genericToDatetime := by
      unfold tsConvert
      rw [if_pos rfl, if_neg (by simp [hlooks])]
    have hstp : ∀ r ∈ r1 :: R',
        stdTypes (Frame.mk true ra lr true true rs (r1 :: R')) r = r := by
      intro r hr
      obtain ⟨_, _, _, ⟨q, hq⟩, ⟨p, hp, hple⟩, _, hRS⟩ := hfix r hr
      apply row_ext
      · rw [stdTypes_timestamp, htsc, hq]
        rfl
      · rw [stdTypes_receiving]
      · rw [stdTypes_location]
      · rw [stdTypes_transaction]
      · rw [stdTypes_amount]
        show (if true = true then toNumericCell r.amount else Cell.null) =
          r.amount
        rw [if_pos rfl, hp]
        rfl
      · rw [stdTypes_risk]
        show (if rs = true then toNumericCell r.risk_score
          else r.risk_score) = r.risk_score
        by_cases hrs : rs = true
        · rw [if_pos hrs, hRS hrs]
        · rw [if_neg hrs]
    have hdropAll : ∀ r ∈ r1 :: R', dropKeep r = true := by
      intro r hr
      obtain ⟨_, _, _, ⟨q, hq⟩, ⟨p, hp, _⟩, httn, _⟩ := hfix r hr
      simp only [dropKeep, Bool.and_eq_true, Bool.not_eq_true']
      exact ⟨⟨by rw [hq]; rfl, httn⟩, by rw [hp]; rfl⟩
    have hgeAll : ∀ r ∈ r1 :: R', amountGe0 r = true := by
      intro r hr
      obtain ⟨_, _, _, _, ⟨p, hp, hple⟩, _, _⟩ := hfix r hr
      simp [amountGe0, hp, hple]
    have hpre : preDedup (Frame.mk true ra lr true true rs (r1 :: R')) =
        r1 :: R' := by
      unfold preDedup
      rw [hstrR, mapFix _ _ hstp, List.filter_eq_self.mpr hdropAll,
        List.filter_eq_self.mpr hgeAll]
    rw [hpre,
      show dedupFirst (dedupKey ra) (r1 :: R') = r1 :: R' from
        dedupFirstAux_eq_self _ _ _ (fun y hy => List.not_mem_nil _) hpair]

/-- C6: the Standardizer is idempotent — whenever a first application
succeeds and produces `out`, applying `clean_and_standardize` to `out`
succeeds and returns `out` itself (same rows, same values, same
columns). -/
theorem clean_and_standardize_idem (df out : Frame)
    (h : clean_and_standardize df = some out) :
    clean_and_standardize out = some out := by
  by_cases htt : df.hasTransactionType = true
  case neg =>
    rw [clean_and_standardize, if_neg htt] at h
    cases h
  rw [clean_and_standardize, if_pos htt] at h
  have hout := (Option.some.inj h).symm
  subst hout
  apply clean_fixed
  · intro r hr
    exact preDedup_invariant df htt r (dedupFirstAux_subset _ _ _ _ hr)
  · exact dedupFirstAux_pairwise _ _ _

set_option maxRecDepth 400000 in
/-- C6 witness: a second pass over the cleaned frame `outZeroNone`
reproduces it exactly. -/
theorem clean_and_standardize_idem_witness :
    clean_and_standardize outZeroNone = some outZeroNone :=
  clean_and_standardize_idem dfZeroNone outZeroNone
    (by with_unfolding_all decide)
